import Mathlib

/-!
Shallow embedding of the semantic binder and symbol resolver of the
AssemblyScript-style compiler core (`src/program.ts`), together with
theorems settling the frozen claims about it.

Maps (`Map<string, Element>`) are modelled as association lists whose
stored values are `Option Nat`: a stored `none` models the JavaScript
value `undefined` (which `Map.set` can store and which is falsy), and a
missing key is an outer `none` of the lookup.  Program entities live in
an arena (`ProgState.entities`); an entity id models object identity.
Loops of the source that can genuinely diverge (the re-export chase in
`tryResolveImport` and the queued-export post-pass) take explicit fuel;
`none` as an overall result means the fuel ran out, i.e. the source
does not terminate within that many iterations.
-/

namespace AScript

/-- Path delimiter between a source's internal path and a simple name. -/
def PATH_DELIMITER : String := "/"

/-- Delimiter between a class/namespace internal name and a static member name. -/
def STATIC_DELIMITER : String := "."

/-- Delimiter between a class internal name and an instance member name. -/
def INSTANCE_DELIMITER : String := "#"

/-- Diagnostic codes the binder and resolver emit (`src/diagnostics`). -/
inductive DiagnosticCode where
  | Duplicate_identifier_0
  | Export_declaration_conflicts_with_exported_declaration_of_0
  | Module_0_has_no_exported_member_1
  | Cannot_find_name_0
  | Property_0_does_not_exist_on_type_1
  | Expected_0_type_arguments_but_got_1
  | Operation_not_supported
deriving DecidableEq, Repr, Inhabited

/-- A reported diagnostic: code plus substitution arguments. -/
structure Diag where
  code : DiagnosticCode
  args : List String
deriving DecidableEq, Repr, Inhabited

/-- Entity ids: handles into the program's entity arena. -/
abbrev EntId := Nat

/-- A JavaScript value stored in an entity map; `none` models `undefined`. -/
abbrev JsVal := Option EntId

/-- A `Map<string, Element>`: association list of stored JS values. -/
abbrev JsMap := List (String × JsVal)

/-- Model of `map.get(k)`: `undefined` both for a missing key and for a
stored `undefined`, i.e. the flattening of the association-list lookup. -/
def jsGet (m : JsMap) (k : String) : JsVal := (m.lookup k).join

/-- Model of `map.has(k)`: true iff the key is present (even if the
stored value is `undefined`). -/
def jsHas (m : JsMap) (k : String) : Bool := (m.lookup k).isSome

/-- Model of `map.set(k, v)`: the new binding shadows any old one. -/
def jsSet (m : JsMap) (k : String) (v : JsVal) : JsMap := (k, v) :: m

/-- Modelled from the spec: concrete types (`src/types.ts` is not part of
the given sources).  Only identity and the canonical string form matter
for the claims, so a `Type` is one of the primitive type values the
program registers. -/
inductive Ty where
  | i8 | i16 | i32 | i64 | isize32 | isize64
  | u8 | u16 | u32 | u64 | usize32 | usize64
  | bool | f32 | f64 | void
deriving DecidableEq, Repr, Inhabited

/-- Modelled from the spec: the canonical string of a single type. -/
def tyToString : Ty → String
  | .i8 => "i8" | .i16 => "i16" | .i32 => "i32" | .i64 => "i64"
  | .isize32 => "isize" | .isize64 => "isize"
  | .u8 => "u8" | .u16 => "u16" | .u32 => "u32" | .u64 => "u64"
  | .usize32 => "usize" | .usize64 => "usize"
  | .bool => "bool" | .f32 => "f32" | .f64 => "f64" | .void => "void"

/-- Modelled from the spec: `typesToString(types, pre, post)` joins the
canonical type strings with commas between the given brackets (angle
brackets by default; empty strings for instance-cache keys). -/
def typesToString (ts : List Ty) (pre post : String) : String :=
  pre ++ String.intercalate "," (ts.map tyToString) ++ post

/-- A type expression node: identifier, type arguments, and the internal
path of the source it appears in (`node.range.source.internalPath`). -/
inductive TypeNode where
  | mk (name : String) (typeArguments : List TypeNode) (srcPath : String)
deriving Repr

/-- Lookup of a bare name in an optional contextual-type-argument map. -/
def ctxFind : Option (List (String × Ty)) → String → Option Ty
  | none, _ => none
  | some m, n => m.lookup n

/-- WebAssembly target (`Target` from `src/compiler`). -/
inductive Target where
  | wasm32 | wasm64
deriving DecidableEq, Repr

/-- The specific kind of an `Element` (`ElementKind`). -/
inductive ElementKind where
  | globalVar | localVar | enumElem | enumValue
  | functionProto | functionInst | classProto | classInst
  | interfaceProto | interfaceInst | fieldProto | fieldInst
  | propertyElem | namespaceElem
deriving DecidableEq, Repr, Inhabited

/-- Arena record for a program element: the `Element` base-class data the
claims observe (kind, names, the flags the constructors derive from
modifiers, the lazily allocated `members` map, and the parent-namespace
link). -/
structure EntityData where
  kind : ElementKind
  simpleName : String
  internalName : String
  isExported : Bool
  isImported : Bool
  isDeclared : Bool
  isConstant : Bool
  members : Option JsMap
  nsLink : Option EntId
deriving DecidableEq, Repr, Inhabited

/-- The program state: entity arena plus the four top-level maps and the
diagnostics list of the `DiagnosticEmitter`. -/
structure ProgState where
  entities : List EntityData
  elements : JsMap
  exports : JsMap
  types : List (String × Ty)
  typeAliases : List (String × TypeNode)
  diags : List Diag
deriving Repr

/-- Emit a diagnostic (`this.error(code, range, ...args)`). -/
def ProgState.error (st : ProgState) (code : DiagnosticCode) (args : List String) : ProgState :=
  { st with diags := st.diags ++ [⟨code, args⟩] }

/-- Allocate a fresh entity (models `new ...`): its id is the arena size. -/
def ProgState.alloc (st : ProgState) (e : EntityData) : EntId × ProgState :=
  (st.entities.length, { st with entities := st.entities ++ [e] })

/-- Read an entity record by id. -/
def ProgState.getEnt (st : ProgState) (id : EntId) : EntityData :=
  st.entities.getD id default

/-- Replace an entity record by id. -/
def ProgState.setEnt (st : ProgState) (id : EntId) (e : EntityData) : ProgState :=
  { st with entities := st.entities.set id e }

/-- Model of `element.members.set(k, v)` with lazy map creation
(`if (!e.members) e.members = new Map(); e.members.set(k, v)`). -/
def ProgState.setMember (st : ProgState) (id : EntId) (k : String) (v : JsVal) : ProgState :=
  let e := st.getEnt id
  st.setEnt id { e with members := some (jsSet (e.members.getD []) k v) }

/-- Modifier kinds (`ModifierKind` from `src/ast`). -/
inductive ModifierKind where
  | importMod | exportMod | declareMod | constMod | staticMod
  | readonlyMod | getMod | setMod | privateMod | protectedMod
  | publicMod | abstractMod
deriving DecidableEq, Repr

/-- Model of `hasModifier(kind, modifiers)`. -/
def hasModifier (m : ModifierKind) (mods : List ModifierKind) : Bool :=
  mods.contains m

/-- A decorator whose expression is a plain identifier, with its argument
count. -/
structure Decorator where
  name : String
  argCount : Nat
deriving DecidableEq, Repr

/-- Model of `hasDecorator(name, decorators)`: an identifier-named
decorator with at most one argument. -/
def hasDecorator (name : String) (ds : List Decorator) : Bool :=
  ds.any fun d => d.argCount ≤ 1 && d.name == name

/-- Data of a fresh `Namespace` (constructor modifier switch:
IMPORT/EXPORT/DECLARE). -/
def mkNamespaceData (name iname : String) (mods : List ModifierKind) (ns : Option EntId) : EntityData :=
  { kind := .namespaceElem, simpleName := name, internalName := iname,
    isExported := hasModifier .exportMod mods, isImported := hasModifier .importMod mods,
    isDeclared := hasModifier .declareMod mods, isConstant := false,
    members := none, nsLink := ns }

/-- Data of a fresh `Enum` (modifier switch: EXPORT/IMPORT/DECLARE/CONST). -/
def mkEnumData (name iname : String) (mods : List ModifierKind) (ns : Option EntId) : EntityData :=
  { kind := .enumElem, simpleName := name, internalName := iname,
    isExported := hasModifier .exportMod mods, isImported := hasModifier .importMod mods,
    isDeclared := hasModifier .declareMod mods, isConstant := hasModifier .constMod mods,
    members := none, nsLink := ns }

/-- Data of a fresh `EnumValue` (no modifiers). -/
def mkEnumValueData (name iname : String) : EntityData :=
  { kind := .enumValue, simpleName := name, internalName := iname,
    isExported := false, isImported := false, isDeclared := false, isConstant := false,
    members := none, nsLink := none }

/-- Data of a fresh `Global` (modifier switch:
IMPORT/EXPORT/CONST/DECLARE, STATIC ignored). -/
def mkGlobalData (name iname : String) (mods : List ModifierKind) (ns : Option EntId) : EntityData :=
  { kind := .globalVar, simpleName := name, internalName := iname,
    isExported := hasModifier .exportMod mods, isImported := hasModifier .importMod mods,
    isDeclared := hasModifier .declareMod mods, isConstant := hasModifier .constMod mods,
    members := none, nsLink := ns }

/-- Data of a fresh `FunctionPrototype` created by the binder (modifier
switch: IMPORT/EXPORT/DECLARE/GET/SET, the rest ignored). -/
def mkFunctionProtoData (name iname : String) (mods : List ModifierKind) (ns : Option EntId) : EntityData :=
  { kind := .functionProto, simpleName := name, internalName := iname,
    isExported := hasModifier .exportMod mods, isImported := hasModifier .importMod mods,
    isDeclared := hasModifier .declareMod mods, isConstant := false,
    members := none, nsLink := ns }

/-- Data of a fresh `ClassPrototype` (modifier switch: IMPORT/EXPORT/DECLARE). -/
def mkClassProtoData (name iname : String) (mods : List ModifierKind) (ns : Option EntId) : EntityData :=
  { kind := .classProto, simpleName := name, internalName := iname,
    isExported := hasModifier .exportMod mods, isImported := hasModifier .importMod mods,
    isDeclared := hasModifier .declareMod mods, isConstant := false,
    members := none, nsLink := ns }

/-- Data of a fresh `InterfacePrototype` (same constructor as
`ClassPrototype`). -/
def mkInterfaceProtoData (name iname : String) (mods : List ModifierKind) (ns : Option EntId) : EntityData :=
  { mkClassProtoData name iname mods ns with kind := .interfaceProto }

/-- A `VariableDeclaration` of a variable statement. -/
structure VariableDeclarationAst where
  name : String
  internalName : String
  modifiers : List ModifierKind
  decorators : List Decorator
deriving Repr

/-- An `EnumValueDeclaration`. -/
structure EnumValueDecl where
  name : String
  internalName : String
deriving Repr

/-- Declaration statements the binder dispatches on.  Class and interface
bodies and generic parameters are outside the embedded fragment (no claim
concerns them), so those declarations are modelled without members. -/
inductive Decl where
  | classDecl (name internalName : String) (modifiers : List ModifierKind) (decorators : List Decorator)
  | enumDecl (name internalName : String) (modifiers : List ModifierKind) (values : List EnumValueDecl)
  | funcDecl (name internalName : String) (modifiers : List ModifierKind) (decorators : List Decorator)
  | interfaceDecl (name internalName : String) (modifiers : List ModifierKind)
  | namespaceDecl (name internalName : String) (modifiers : List ModifierKind) (members : List Decl)
  | typeDecl (name : String) (aliasNode : TypeNode)
  | varDecl (declarations : List VariableDeclarationAst)
deriving Repr

/-- An `ExportMember` of an export statement. -/
structure ExportMemberAst where
  identifier : String
  externalIdentifier : String
deriving Repr

/-- An `ExportStatement`: members, the internal path of the referenced
module (`null` for a local export), the module path literal used in
diagnostics, and the internal path of the containing source. -/
structure ExportStatementAst where
  members : List ExportMemberAst
  internalPath : Option String
  path : String
  srcPath : String
deriving Repr

/-- An `ImportDeclaration`. -/
structure ImportDeclarationAst where
  name : String
  internalName : String
  externalIdentifier : String
deriving Repr

/-- An `ImportStatement`. -/
structure ImportStatementAst where
  declarations : Option (List ImportDeclarationAst)
  namespaceName : Option String
  internalPath : String
  path : String
  srcPath : String
deriving Repr

/-- Top-level statements of a source the binder loop dispatches on. -/
inductive Stmt where
  | decl (d : Decl)
  | exportStmt (s : ExportStatementAst)
  | importStmt (s : ImportStatementAst)
deriving Repr

/-- A parsed source: its top-level statements. -/
abbrev Source := List Stmt

/-- A deferred export binding (`QueuedExport`), with the member's
identifier names and the statement's module path kept for diagnostics. -/
structure QueuedExport where
  isReExport : Bool
  referencedName : String
  memberIdentifier : String
  memberExternalIdentifier : String
  path : String
deriving DecidableEq, Repr

/-- A deferred import binding (`QueuedImport`), with the declaration's
module path and external identifier kept for diagnostics. -/
structure QueuedImport where
  internalName : String
  referencedName : String
  path : String
  externalIdentifier : String
deriving DecidableEq, Repr

/-- Model of `Program.initializeClass` (class bodies are outside the
embedded fragment, so the member loop of the source is empty here). -/
def initializeClass (st : ProgState) (name iname : String) (mods : List ModifierKind)
    (decs : List Decorator) (ns : Option EntId) : ProgState :=
  if jsHas st.elements iname then st.error .Duplicate_identifier_0 [iname]
  else
    let p := st.alloc (mkClassProtoData name iname mods ns)
    let id := p.1
    let st := p.2
    let st := { st with elements := jsSet st.elements iname (some id) }
    let st :=
      if hasDecorator "global" decs then
        if jsHas st.elements name then st.error .Duplicate_identifier_0 [iname]
        else { st with elements := jsSet st.elements name (some id) }
      else st
    match ns with
    | some nsId =>
      match (st.getEnt nsId).members with
      | some ms =>
        if jsHas ms name then st.error .Duplicate_identifier_0 [iname]
        else st.setMember nsId name (some id)
      | none => st.setMember nsId name (some id)
    | none =>
      if (st.getEnt id).isExported then
        if jsHas st.exports iname then
          st.error .Export_declaration_conflicts_with_exported_declaration_of_0 [iname]
        else { st with exports := jsSet st.exports iname (some id) }
      else st

/-- Model of `Program.initializeEnumValue`. -/
def initializeEnumValue (st : ProgState) (enmId : EntId) (v : EnumValueDecl) : ProgState :=
  match (st.getEnt enmId).members with
  | some ms =>
    if jsHas ms v.name then st.error .Duplicate_identifier_0 [v.internalName]
    else
      let p := st.alloc (mkEnumValueData v.name v.internalName)
      p.2.setMember enmId v.name (some p.1)
  | none =>
    let p := st.alloc (mkEnumValueData v.name v.internalName)
    p.2.setMember enmId v.name (some p.1)

/-- The enum-value loop at the end of `Program.initializeEnum`. -/
def initializeEnumValues (st : ProgState) (enmId : EntId) (values : List EnumValueDecl) : ProgState :=
  values.foldl (fun s v => initializeEnumValue s enmId v) st

/-- Model of `Program.initializeEnum`.  Note that the duplicate and
export-conflict branches return before the values are initialized. -/
def initializeEnum (st : ProgState) (name iname : String) (mods : List ModifierKind)
    (values : List EnumValueDecl) (ns : Option EntId) : ProgState :=
  if jsHas st.elements iname then st.error .Duplicate_identifier_0 [iname]
  else
    let p := st.alloc (mkEnumData name iname mods ns)
    let id := p.1
    let st := p.2
    let st := { st with elements := jsSet st.elements iname (some id) }
    match ns with
    | some nsId =>
      match (st.getEnt nsId).members with
      | some ms =>
        if jsHas ms name then st.error .Duplicate_identifier_0 [iname]
        else initializeEnumValues (st.setMember nsId name (some id)) id values
      | none => initializeEnumValues (st.setMember nsId name (some id)) id values
    | none =>
      if (st.getEnt id).isExported then
        if jsHas st.exports iname then
          st.error .Export_declaration_conflicts_with_exported_declaration_of_0 [iname]
        else initializeEnumValues { st with exports := jsSet st.exports iname (some id) } id values
      else initializeEnumValues st id values

/-- Model of `Program.initializeFunction`. -/
def initializeFunction (st : ProgState) (name iname : String) (mods : List ModifierKind)
    (decs : List Decorator) (ns : Option EntId) : ProgState :=
  if jsHas st.elements iname then st.error .Duplicate_identifier_0 [iname]
  else
    let p := st.alloc (mkFunctionProtoData name iname mods ns)
    let id := p.1
    let st := p.2
    let st := { st with elements := jsSet st.elements iname (some id) }
    let st :=
      if hasDecorator "global" decs then
        if jsHas st.elements name then st.error .Duplicate_identifier_0 [iname]
        else { st with elements := jsSet st.elements name (some id) }
      else st
    match ns with
    | some nsId =>
      match (st.getEnt nsId).members with
      | some ms =>
        if jsHas ms name then st.error .Duplicate_identifier_0 [iname]
        else st.setMember nsId name (some id)
      | none => st.setMember nsId name (some id)
    | none =>
      if (st.getEnt id).isExported then
        if jsHas st.exports iname then
          st.error .Export_declaration_conflicts_with_exported_declaration_of_0 [iname]
        else { st with exports := jsSet st.exports iname (some id) }
      else st

/-- Model of `Program.initializeInterface`.  The source inserts the
interface into the enclosing namespace's members keyed by
`prototype.internalName` (not the simple name), which this model
preserves. -/
def initializeInterface (st : ProgState) (name iname : String) (mods : List ModifierKind)
    (ns : Option EntId) : ProgState :=
  if jsHas st.elements iname then st.error .Duplicate_identifier_0 [iname]
  else
    let p := st.alloc (mkInterfaceProtoData name iname mods ns)
    let id := p.1
    let st := p.2
    let st := { st with elements := jsSet st.elements iname (some id) }
    match ns with
    | some nsId =>
      match (st.getEnt nsId).members with
      | some ms =>
        if jsHas ms iname then st.error .Duplicate_identifier_0 [iname]
        else st.setMember nsId iname (some id)
      | none => st.setMember nsId iname (some id)
    | none =>
      if (st.getEnt id).isExported then
        if jsHas st.exports iname then
          st.error .Export_declaration_conflicts_with_exported_declaration_of_0 [iname]
        else { st with exports := jsSet st.exports iname (some id) }
      else st

/-- Model of `Program.initializeType`: type aliases are program globals
checked against `types` and `typeAliases` by simple name (the namespace
argument is unused in the source). -/
def initializeType (st : ProgState) (name : String) (aliasNode : TypeNode)
    (ns : Option EntId) : ProgState :=
  if (st.types.lookup name).isSome || (st.typeAliases.lookup name).isSome then
    st.error .Duplicate_identifier_0 [name]
  else { st with typeAliases := (name, aliasNode) :: st.typeAliases }

/-- The loop body of `Program.initializeVariables` for one declaration
(the source inlines this loop; `continue` becomes returning the state). -/
def initializeVariable (st : ProgState) (d : VariableDeclarationAst) (ns : Option EntId) : ProgState :=
  if jsHas st.elements d.internalName then st.error .Duplicate_identifier_0 [d.internalName]
  else
    let p := st.alloc (mkGlobalData d.name d.internalName d.modifiers ns)
    let id := p.1
    let st := p.2
    let st := { st with elements := jsSet st.elements d.internalName (some id) }
    let st :=
      if hasDecorator "global" d.decorators then
        if jsHas st.elements d.name then st.error .Duplicate_identifier_0 [d.internalName]
        else { st with elements := jsSet st.elements d.name (some id) }
      else st
    match ns with
    | some nsId =>
      match (st.getEnt nsId).members with
      | some ms =>
        if jsHas ms d.name then st.error .Duplicate_identifier_0 [d.internalName]
        else st.setMember nsId d.name (some id)
      | none => st.setMember nsId d.name (some id)
    | none =>
      if (st.getEnt id).isExported then
        if jsHas st.exports d.internalName then
          st.error .Duplicate_identifier_0 [d.internalName]
        else { st with exports := jsSet st.exports d.internalName (some id) }
      else st

/-- Model of `Program.initializeVariables`. -/
def initializeVariables (st : ProgState) (ds : List VariableDeclarationAst)
    (ns : Option EntId) : ProgState :=
  ds.foldl (fun s d => initializeVariable s d ns) st

/-- The body of `Program.initializeNamespace`, parameterized by the
recursive per-member dispatch (the source's mutual recursion between
`initializeNamespace` and the per-kind handlers is tied through a fuel
parameter below so that the definitions stay kernel-reducible): an
existing element with the same internal name is reused without a
diagnostic; otherwise a fresh `Namespace` is created.  The
duplicate-member and export-conflict branches return before the member
declarations are processed. -/
def initializeNamespaceGo (recurse : ProgState → Decl → Option EntId → ProgState)
    (st : ProgState) (name iname : String) (mods : List ModifierKind)
    (members : List Decl) (parentNs : Option EntId) : ProgState :=
  let r :=
    match jsGet st.elements iname with
    | some e => (e, st)
    | none =>
      let p := st.alloc (mkNamespaceData name iname mods parentNs)
      (p.1, { p.2 with elements := jsSet p.2.elements iname (some p.1) })
  let nsId := r.1
  let st := r.2
  match parentNs with
  | some pId =>
    match (st.getEnt pId).members with
    | some ms =>
      if jsHas ms name then st.error .Duplicate_identifier_0 [iname]
      else (members.foldl (fun s d => recurse s d (some nsId))
        (st.setMember pId name (some nsId)))
    | none => (members.foldl (fun s d => recurse s d (some nsId))
        (st.setMember pId name (some nsId)))
  | none =>
    if (st.getEnt nsId).isExported then
      if jsHas st.exports iname then
        st.error .Export_declaration_conflicts_with_exported_declaration_of_0 [iname]
      else (members.foldl (fun s d => recurse s d (some nsId))
        { st with exports := jsSet st.exports iname (some nsId) })
    else members.foldl (fun s d => recurse s d (some nsId)) st

/-- Dispatch over a declaration statement, as in the per-statement switch
of `Program.initialize` and the member switch of `initializeNamespace`.
The fuel bounds the namespace-nesting depth (the source's recursion is
structural over the AST, so any fuel beyond the nesting depth is exact;
exhausted fuel leaves the state unchanged). -/
def initializeDeclFuel : Nat → ProgState → Decl → Option EntId → ProgState
  | 0, st, _, _ => st
  | fuel + 1, st, d, ns =>
    match d with
    | .classDecl name iname mods decs => initializeClass st name iname mods decs ns
    | .enumDecl name iname mods values => initializeEnum st name iname mods values ns
    | .funcDecl name iname mods decs => initializeFunction st name iname mods decs ns
    | .interfaceDecl name iname mods => initializeInterface st name iname mods ns
    | .namespaceDecl name iname mods members =>
      initializeNamespaceGo (initializeDeclFuel fuel) st name iname mods members ns
    | .typeDecl name aliasNode => initializeType st name aliasNode ns
    | .varDecl ds => initializeVariables st ds ns

/-- Model of `Program.initializeNamespace` at a given nesting fuel. -/
def initializeNamespace (fuel : Nat) (st : ProgState) (name iname : String)
    (mods : List ModifierKind) (members : List Decl) (parentNs : Option EntId) : ProgState :=
  initializeNamespaceGo (initializeDeclFuel fuel) st name iname mods members parentNs

/-- Appending a re-export to the queue at the end of
`initializeExport`, after the duplicate check against already queued
exports. -/
def exportEnqueueReExport (st : ProgState) (qes : List (String × QueuedExport))
    (externalName : String) (m : ExportMemberAst) (path referencedName : String) :
    ProgState × List (String × QueuedExport) :=
  if (qes.lookup externalName).isSome then
    (st.error .Export_declaration_conflicts_with_exported_declaration_of_0 [externalName], qes)
  else
    (st, qes ++ [(externalName,
      { isReExport := true, referencedName := referencedName,
        memberIdentifier := m.identifier, memberExternalIdentifier := m.externalIdentifier,
        path := path })])

/-- The `while (queuedExport = queuedExports.get(referencedName))` walk of
`initializeExport`.  The `seen` set of queued-export objects is tracked by
the (unique) map keys they were fetched at; the source's
`exports.get(referencedName)` / `elements.get(referencedName)` reads use
the pre-advance name, which this model reproduces.  The fuel is supplied
as `queuedExports.length + 2`, which the seen-set growth never exhausts. -/
def initializeExportWalk (st : ProgState) (qes : List (String × QueuedExport))
    (externalName : String) (m : ExportMemberAst) (path : String) :
    Nat → String → List String → ProgState × List (String × QueuedExport)
  | 0, referencedName, _ => exportEnqueueReExport st qes externalName m path referencedName
  | fuel + 1, referencedName, seenKeys =>
    match qes.lookup referencedName with
    | none => exportEnqueueReExport st qes externalName m path referencedName
    | some qe =>
      if qe.isReExport then
        if jsHas st.exports qe.referencedName then
          ({ st with exports := jsSet st.exports externalName (jsGet st.exports referencedName) }, qes)
        else if seenKeys.contains referencedName then
          exportEnqueueReExport st qes externalName m path qe.referencedName
        else
          initializeExportWalk st qes externalName m path fuel qe.referencedName
            (referencedName :: seenKeys)
      else
        if jsHas st.elements qe.referencedName then
          ({ st with exports := jsSet st.exports externalName (jsGet st.elements referencedName) }, qes)
        else
          exportEnqueueReExport st qes externalName m path referencedName

/-- Model of `Program.initializeExport`. -/
def initializeExport (st : ProgState) (qes : List (String × QueuedExport))
    (internalPath : Option String) (path srcPath : String) (m : ExportMemberAst) :
    ProgState × List (String × QueuedExport) :=
  let externalName := srcPath ++ PATH_DELIMITER ++ m.externalIdentifier
  if jsHas st.exports externalName then
    (st.error .Export_declaration_conflicts_with_exported_declaration_of_0 [externalName], qes)
  else
    match internalPath with
    | none =>
      let referencedName := srcPath ++ PATH_DELIMITER ++ m.identifier
      if jsHas st.elements referencedName then
        ({ st with exports := jsSet st.exports externalName (jsGet st.elements referencedName) }, qes)
      else if (qes.lookup externalName).isSome then
        (st.error .Export_declaration_conflicts_with_exported_declaration_of_0 [externalName], qes)
      else
        (st, qes ++ [(externalName,
          { isReExport := false, referencedName := referencedName,
            memberIdentifier := m.identifier, memberExternalIdentifier := m.externalIdentifier,
            path := path })])
    | some ip =>
      let referencedName := ip ++ PATH_DELIMITER ++ m.identifier
      if jsHas st.exports referencedName then
        ({ st with exports := jsSet st.exports externalName (jsGet st.exports referencedName) }, qes)
      else
        initializeExportWalk st qes externalName m path (qes.length + 2) referencedName []

/-- Model of `Program.initializeExports`. -/
def initializeExports (st : ProgState) (qes : List (String × QueuedExport))
    (s : ExportStatementAst) : ProgState × List (String × QueuedExport) :=
  s.members.foldl (fun acc m => initializeExport acc.1 acc.2 s.internalPath s.path s.srcPath m)
    (st, qes)

/-- The queued-export walk of `Program.initializeImport`; same structure
as `initializeExportWalk`, resolving into `elements[internalName]` and
otherwise producing the `QueuedImport` to append.  The source's
`exports.get(referencedName)` / `elements.get(referencedName)` reads use
the pre-advance name, which this model reproduces. -/
def initializeImportWalk (st : ProgState) (qes : List (String × QueuedExport))
    (internalName path externalIdentifier : String) :
    Nat → String → List String → ProgState × Option QueuedImport
  | 0, referencedName, _ =>
    (st, some { internalName := internalName, referencedName := referencedName,
                path := path, externalIdentifier := externalIdentifier })
  | fuel + 1, referencedName, seenKeys =>
    match qes.lookup referencedName with
    | none =>
      (st, some { internalName := internalName, referencedName := referencedName,
                  path := path, externalIdentifier := externalIdentifier })
    | some qe =>
      if qe.isReExport then
        if jsHas st.exports qe.referencedName then
          ({ st with elements := jsSet st.elements internalName (jsGet st.exports referencedName) }, none)
        else if seenKeys.contains referencedName then
          (st, some { internalName := internalName, referencedName := qe.referencedName,
                      path := path, externalIdentifier := externalIdentifier })
        else
          initializeImportWalk st qes internalName path externalIdentifier fuel
            qe.referencedName (referencedName :: seenKeys)
      else
        if jsHas st.elements qe.referencedName then
          ({ st with elements := jsSet st.elements internalName (jsGet st.elements referencedName) }, none)
        else
          (st, some { internalName := internalName, referencedName := referencedName,
                      path := path, externalIdentifier := externalIdentifier })

/-- Model of `Program.initializeImport`. -/
def initializeImport (st : ProgState) (qes : List (String × QueuedExport))
    (qis : List QueuedImport) (internalPath path : String) (d : ImportDeclarationAst) :
    ProgState × List QueuedImport :=
  if jsHas st.elements d.internalName then
    (st.error .Duplicate_identifier_0 [d.internalName], qis)
  else
    let referencedName := internalPath ++ PATH_DELIMITER ++ d.externalIdentifier
    if jsHas st.exports referencedName then
      ({ st with elements := jsSet st.elements d.internalName (jsGet st.exports referencedName) }, qis)
    else
      match initializeImportWalk st qes d.internalName path d.externalIdentifier
        (qes.length + 2) referencedName [] with
      | (st1, none) => (st1, qis)
      | (st1, some qi) => (st1, qis ++ [qi])

/-- Model of `Program.initializeImports`. -/
def initializeImports (st : ProgState) (qes : List (String × QueuedExport))
    (qis : List QueuedImport) (s : ImportStatementAst) : ProgState × List QueuedImport :=
  match s.declarations with
  | some ds =>
    ds.foldl (fun acc d => initializeImport acc.1 qes acc.2 s.internalPath s.path d) (st, qis)
  | none =>
    match s.namespaceName with
    | some n =>
      let internalName := s.srcPath ++ "/" ++ n
      if jsHas st.elements internalName then
        (st.error .Duplicate_identifier_0 [internalName], qis)
      else (st.error .Operation_not_supported [], qis)
    | none => (st, qis)

/-- Model of `Program.tryResolveImport`, indexed by fuel: the source's
`do ... while (true)` loop has no cycle guard, so an overall `none`
means the loop has not returned within `fuel` iterations. -/
def tryResolveImport (exp elems : JsMap) (qes : List (String × QueuedExport)) :
    Nat → String → Option JsVal
  | 0, _ => none
  | fuel + 1, referencedName =>
    match jsGet exp referencedName with
    | some e => some (some e)
    | none =>
      match qes.lookup referencedName with
      | none => some none
      | some qe =>
        if qe.isReExport then tryResolveImport exp elems qes fuel qe.referencedName
        else some (jsGet elems qe.referencedName)

/-- The queued-import post-pass of `Program.initialize` (the source's
splice-based iteration visits each queued import exactly once). -/
def runQueuedImports (fuel : Nat) (st : ProgState) (qes : List (String × QueuedExport)) :
    List QueuedImport → Option ProgState
  | [] => some st
  | qi :: rest =>
    match tryResolveImport st.exports st.elements qes fuel qi.referencedName with
    | none => none
    | some (some e) =>
      runQueuedImports fuel { st with elements := jsSet st.elements qi.internalName (some e) }
        qes rest
    | some none =>
      runQueuedImports fuel
        (st.error .Module_0_has_no_exported_member_1 [qi.path, qi.externalIdentifier]) qes rest

/-- The `do ... while (currentExport)` chain of the queued-export
post-pass, indexed by fuel (the source has no cycle guard here either). -/
def runQueuedExportChain (qes : List (String × QueuedExport)) (exportName : String)
    (qe0 : QueuedExport) : Nat → ProgState → QueuedExport → Option ProgState
  | 0, _, _ => none
  | fuel + 1, st, current =>
    if current.isReExport then
      match jsGet st.exports current.referencedName with
      | some e => some { st with exports := jsSet st.exports exportName (some e) }
      | none =>
        match qes.lookup current.referencedName with
        | some next => runQueuedExportChain qes exportName qe0 fuel st next
        | none =>
          some (st.error .Module_0_has_no_exported_member_1
            [qe0.path, qe0.memberExternalIdentifier])
    else
      match jsGet st.elements current.referencedName with
      | some e => some { st with exports := jsSet st.exports exportName (some e) }
      | none => some (st.error .Cannot_find_name_0 [qe0.memberIdentifier])

/-- The queued-export post-pass of `Program.initialize`, iterating the
queued-export map in insertion order. -/
def runQueuedExports (fuel : Nat) (st : ProgState) (qes : List (String × QueuedExport)) :
    List (String × QueuedExport) → Option ProgState
  | [] => some st
  | (exportName, qe) :: rest =>
    match runQueuedExportChain qes exportName qe fuel st qe with
    | none => none
    | some st1 => runQueuedExports fuel st1 qes rest

/-- The primitive type table `Program.initialize` installs, including the
target-dependent pointer-size aliases and `number`/`boolean`. -/
def initialTypes (target : Target) : List (String × Ty) :=
  [("i8", .i8), ("i16", .i16), ("i32", .i32), ("i64", .i64),
   ("isize", if target = .wasm64 then .isize64 else .isize32),
   ("u8", .u8), ("u16", .u16), ("u32", .u32), ("u64", .u64),
   ("usize", if target = .wasm64 then .usize64 else .usize32),
   ("bool", .bool), ("f32", .f32), ("f64", .f64), ("void", .void),
   ("number", .f64), ("boolean", .bool)]

/-- The per-statement dispatch of the binder loop in `Program.initialize`,
threading the program state and both queues. -/
def initializeStatement (fuel : Nat)
    (acc : ProgState × List (String × QueuedExport) × List QueuedImport) (s : Stmt) :
    ProgState × List (String × QueuedExport) × List QueuedImport :=
  match s with
  | .decl d => (initializeDeclFuel fuel acc.1 d none, acc.2.1, acc.2.2)
  | .exportStmt e =>
    let r := initializeExports acc.1 acc.2.1 e
    (r.1, r.2, acc.2.2)
  | .importStmt i =>
    let r := initializeImports acc.1 acc.2.1 acc.2.2 i
    (r.1, acc.2.1, r.2)

/-- Model of `Program.initialize`: install the primitive types (built-in
registration is external to the given sources and is modelled as the
identity), bind every top-level statement of every source, then run the
queued-import and queued-export post-passes.  `none` means a post-pass
loop did not terminate within the given fuel. -/
def initializeProgram (fuel : Nat) (sources : List Source) (target : Target) :
    Option ProgState :=
  let st0 : ProgState :=
    { entities := [], elements := [], exports := [], types := initialTypes target,
      typeAliases := [], diags := [] }
  let acc := sources.foldl (fun a src => src.foldl (initializeStatement fuel) a) (st0, ([], []))
  match runQueuedImports fuel acc.1 acc.2.1 acc.2.2 with
  | none => none
  | some st1 => runQueuedExports fuel st1 acc.2.1 acc.2.1

/-- The `Cannot_find_name_0` diagnostic for a global name. -/
def cannotFind (g : String) : Diag := ⟨.Cannot_find_name_0, [g]⟩

/-- Resolution of a list of type nodes with a given resolver, as in the
parameter loops of `resolveType` and `resolveTypeArguments`: any failed
element aborts the list, and diagnostics accumulate in order. -/
def resolveEach (r : TypeNode → Option (Option Ty × List Diag)) :
    List TypeNode → Option (Option (List Ty) × List Diag)
  | [] => some (some [], [])
  | n :: rest =>
    match r n with
    | none => none
    | some (none, ds) => some (none, ds)
    | some (some t, ds) =>
      match resolveEach r rest with
      | none => none
      | some (none, ds2) => some (none, ds ++ ds2)
      | some (some ts, ds2) => some (some (t :: ts), ds ++ ds2)

/-- The lookup tail of `resolveType` once the global name is formed:
file-local `types`, program-global `types`, then a `typeAliases` chase
via the given resolver; a complete miss reports `Cannot_find_name_0`
when requested and fails. -/
def resolveTypeLookup (r : TypeNode → Option (Option Ty × List Diag)) (st : ProgState)
    (srcPath g : String) (rep : Bool) (ds0 : List Diag) : Option (Option Ty × List Diag) :=
  match st.types.lookup (srcPath ++ PATH_DELIMITER ++ g) with
  | some t => some (some t, ds0)
  | none =>
    match st.types.lookup g with
    | some t => some (some t, ds0)
    | none =>
      match st.typeAliases.lookup g with
      | some aliasNode =>
        match r aliasNode with
        | none => none
        | some (some t, ds) => some (some t, ds0 ++ ds)
        | some (none, ds) =>
          some (none, ds0 ++ ds ++ (if rep then [cannotFind g] else []))
      | none => some (none, ds0 ++ (if rep then [cannotFind g] else []))

/-- Model of `Program.resolveType`, indexed by fuel for the alias chase
(a cyclic alias chain makes the source recurse forever; `none` means the
fuel ran out).  Result: `some (some t, ds)` is a resolved type,
`some (none, ds)` the `null` failure, each with the diagnostics emitted. -/
def resolveType (st : ProgState) :
    Nat → TypeNode → Option (List (String × Ty)) → Bool → Option (Option Ty × List Diag)
  | 0, _, _, _ => none
  | fuel + 1, .mk name args srcPath, ctx, rep =>
    match resolveEach (fun n => resolveType st fuel n ctx rep) args with
    | none => none
    | some (none, ds) => some (none, ds)
    | some (some pts, ds0) =>
      if args.length ≠ 0 then
        resolveTypeLookup (fun n => resolveType st fuel n none rep) st srcPath
          (name ++ typesToString pts "<" ">") rep ds0
      else
        match ctxFind ctx name with
        | some t => some (some t, ds0)
        | none => resolveTypeLookup (fun n => resolveType st fuel n none rep) st srcPath name rep ds0

/-- Modelled from the spec: the prescribed lookup order for a formed
global name — `types[<srcPath>/<g>]`, then `types[<g>]`, then the alias
table with the alias resolved by a recursive call that passes no
contextual type arguments; on a complete miss, `Cannot_find_name_0`
exactly when `reportNotFound`, and failure either way. -/
def resolveTypeOrdered (st : ProgState) (fuel : Nat) (srcPath g : String) (rep : Bool)
    (ds0 : List Diag) : Option (Option Ty × List Diag) :=
  match st.types.lookup (srcPath ++ PATH_DELIMITER ++ g) with
  | some t => some (some t, ds0)
  | none =>
    match st.types.lookup g with
    | some t => some (some t, ds0)
    | none =>
      match st.typeAliases.lookup g with
      | some aliasNode =>
        match resolveType st fuel aliasNode none rep with
        | none => none
        | some (some t, ds) => some (some t, ds0 ++ ds)
        | some (none, ds) =>
          some (none, ds0 ++ ds ++ (if rep then [cannotFind g] else []))
      | none => some (none, ds0 ++ (if rep then [cannotFind g] else []))

/-- The `Expected_0_type_arguments_but_got_1` diagnostic. -/
def expectedDiag (p a : Nat) : Diag :=
  ⟨.Expected_0_type_arguments_but_got_1, [Nat.repr p, Nat.repr a]⟩

/-- The argument count of an optional type-argument node list
(`typeArgumentNodes ? typeArgumentNodes.length : 0`). -/
def argCountOf : Option (List TypeNode) → Nat
  | some l => l.length
  | none => 0

/-- Model of `Program.resolveTypeArguments`.  `alt` records whether an
`alternativeReportNode` was provided (it only serves as a report range). -/
def resolveTypeArguments (st : ProgState) (fuel : Nat) (typeParameters : List String)
    (typeArgumentNodes : Option (List TypeNode)) (ctx : Option (List (String × Ty)))
    (alt : Bool) : Option (Option (List Ty) × List Diag) :=
  let parameterCount := typeParameters.length
  let argumentCount := argCountOf typeArgumentNodes
  if parameterCount ≠ argumentCount then
    if argumentCount ≠ 0 then some (none, [expectedDiag parameterCount argumentCount])
    else if alt then some (none, [expectedDiag parameterCount 0])
    else some (none, [])
  else
    resolveEach (fun n => resolveType st fuel n ctx true)
      (match typeArgumentNodes with | some l => l | none => [])

/-- The contextual function of `resolveIdentifier`: its locals map, and
the chain of enclosing-namespace internal names of its prototype
(`prototype.namespace` and the `namespace` links, innermost first; the
empty list is a `null` namespace). -/
structure CtxFunction where
  locals : JsMap
  nsChain : List String
deriving Repr

/-- The `do ... while (namespace = namespace.namespace)` probe loop of
`resolveIdentifier`. -/
def resolveIdentifierNs (elems : JsMap) (name : String) : List String → Option EntId
  | [] => none
  | iname :: parents =>
    match jsGet elems (iname ++ STATIC_DELIMITER ++ name) with
    | some e => some e
    | none => resolveIdentifierNs elems name parents

/-- Model of `Program.resolveIdentifier`: locals, then enclosing
namespaces, then the current file, then the global scope; exhaustion
emits `Cannot_find_name_0` and fails. -/
def resolveIdentifier (elems : JsMap) (cf : CtxFunction) (srcPath name : String) :
    Option EntId × List Diag :=
  match jsGet cf.locals name with
  | some l => (some l, [])
  | none =>
    match resolveIdentifierNs elems name cf.nsChain with
    | some e => (some e, [])
    | none =>
      match jsGet elems (srcPath ++ PATH_DELIMITER ++ name) with
      | some e => (some e, [])
      | none =>
        match jsGet elems name with
        | some e => (some e, [])
        | none => (none, [⟨.Cannot_find_name_0, [name]⟩])

/-- Modelled from the spec: the scope order as a flat candidate list —
the function's locals, each enclosing namespace probe in chain order,
the current file, the global scope — taking the first hit, with
`Cannot_find_name_0` on exhaustion. -/
def resolveIdentifierOrdered (elems : JsMap) (cf : CtxFunction) (srcPath name : String) :
    Option EntId × List Diag :=
  let candidates :=
    [jsGet cf.locals name] ++
    cf.nsChain.map (fun ns => jsGet elems (ns ++ STATIC_DELIMITER ++ name)) ++
    [jsGet elems (srcPath ++ PATH_DELIMITER ++ name), jsGet elems name]
  match candidates.findSome? (fun x => x) with
  | some e => (some e, [])
  | none => (none, [⟨.Cannot_find_name_0, [name]⟩])

/-- A function parameter declaration (name and optional annotated type). -/
structure ParameterDeclaration where
  name : String
  type : Option TypeNode
deriving Repr

/-- A `FunctionDeclaration` as `FunctionPrototype.resolve` reads it:
type-parameter names, parameters, and the optional return type node. -/
structure FunctionDecl where
  typeParameters : List String
  parameters : List ParameterDeclaration
  returnType : Option TypeNode
deriving Repr

/-- A resolved `Function`.  `id` is the allocation counter value at
creation and models object identity. -/
structure FunctionInst where
  id : Nat
  prototypeInternalName : String
  internalName : String
  typeArguments : Option (List Ty)
  parameters : List (String × Ty)
  returnType : Ty
deriving DecidableEq, Repr

/-- A `FunctionPrototype` with its instance cache.  `nextId` is the
allocation counter for the `Function` objects this prototype creates
(built-in prototypes without a declaration, which `resolve` rejects by
throwing, are outside the embedded fragment). -/
structure FunctionPrototype where
  simpleName : String
  internalName : String
  isSetter : Bool
  declaration : FunctionDecl
  instances : List (String × FunctionInst)
  nextId : Nat
deriving Repr

/-- The instance-cache key: `typesToString(typeArguments, "", "")`, the
empty string for the `null` case. -/
def instKeyOf : Option (List Ty) → String
  | some ts => typesToString ts "" ""
  | none => ""

/-- The internal name of an instance: the prototype's internal name,
suffixed with the angle-bracketed key exactly when the key is non-empty. -/
def mkInstanceName (base k : String) : String :=
  if k = "" then base else base ++ "<" ++ k ++ ">"

/-- Sequential `Map.set` of the given pairs onto a contextual map (a later
binding shadows an earlier one for lookup). -/
def ctxSetAll (base kvs : List (String × Ty)) : List (String × Ty) :=
  kvs.foldl (fun m kv => kv :: m) base

/-- The call-specific contextual-type-argument override at the start of
`FunctionPrototype.resolve`: with a non-empty type-argument list, a fresh
map holding the inherited bindings overwritten by the declaration's
type-parameter names bound to the call's type arguments. -/
def overrideCtx (decl : FunctionDecl) (ta : Option (List Ty))
    (ctx : Option (List (String × Ty))) : Option (List (String × Ty)) :=
  match ta with
  | some ts =>
    if ts.length ≠ 0 then
      some (ctxSetAll (match ctx with | some m => m | none => []) (decl.typeParameters.zip ts))
    else ctx
  | none => ctx

/-- The parameter loop of `FunctionPrototype.resolve`: an unannotated
parameter or a failed resolution returns `null`. -/
def resolveParams (st : ProgState) (fuel : Nat) :
    List ParameterDeclaration → Option (List (String × Ty)) →
    Option (Option (List (String × Ty)) × List Diag)
  | [], _ => some (some [], [])
  | pd :: rest, ctx =>
    match pd.type with
    | none => some (none, [])
    | some tn =>
      match resolveType st fuel tn ctx true with
      | none => none
      | some (none, ds) => some (none, ds)
      | some (some t, ds) =>
        match resolveParams st fuel rest ctx with
        | none => none
        | some (none, ds2) => some (none, ds ++ ds2)
        | some (some ps, ds2) => some (some ((pd.name, t) :: ps), ds ++ ds2)

/-- The signature-resolution part of `FunctionPrototype.resolve`:
contextual override, parameter resolution, then the return type (`void`
for setters, the annotated node otherwise; a missing annotation fails). -/
def resolveSignature (st : ProgState) (fuel : Nat) (p : FunctionPrototype)
    (ta : Option (List Ty)) (ctx : Option (List (String × Ty))) :
    Option (Option (List (String × Ty) × Ty) × List Diag) :=
  let ctx2 := overrideCtx p.declaration ta ctx
  match resolveParams st fuel p.declaration.parameters ctx2 with
  | none => none
  | some (none, ds) => some (none, ds)
  | some (some ps, ds) =>
    if p.isSetter then some (some (ps, Ty.void), ds)
    else
      match p.declaration.returnType with
      | none => some (none, ds)
      | some tn =>
        match resolveType st fuel tn ctx2 true with
        | none => none
        | some (none, ds2) => some (none, ds ++ ds2)
        | some (some t, ds2) => some (some (ps, t), ds ++ ds2)

/-- Model of `FunctionPrototype.resolve`: return the cached instance for
the serialized key if present, otherwise resolve the signature, construct
the `Function` (fresh identity, suffixed internal name) and cache it. -/
def FunctionPrototype.resolve (st : ProgState) (fuel : Nat) (p : FunctionPrototype)
    (typeArguments : Option (List Ty)) (ctx : Option (List (String × Ty))) :
    Option (Option FunctionInst × FunctionPrototype × List Diag) :=
  let instanceKey := instKeyOf typeArguments
  match p.instances.lookup instanceKey with
  | some inst => some (some inst, p, [])
  | none =>
    match resolveSignature st fuel p typeArguments ctx with
    | none => none
    | some (none, ds) => some (none, p, ds)
    | some (some sig, ds) =>
      let inst : FunctionInst :=
        { id := p.nextId, prototypeInternalName := p.internalName,
          internalName := mkInstanceName p.internalName instanceKey,
          typeArguments := typeArguments, parameters := sig.1, returnType := sig.2 }
      some (some inst,
        { p with instances := (instanceKey, inst) :: p.instances, nextId := p.nextId + 1 }, ds)

/-- Well-formedness of a prototype's instance cache: every cached
instance was allocated by this prototype (id below the counter),
instances cached under distinct keys are distinct objects, and every
cached instance carries the suffixed internal name for its key.  It
holds for a fresh prototype and is preserved by `resolve`. -/
def protoWF (p : FunctionPrototype) : Prop :=
  (∀ k f, p.instances.lookup k = some f → f.id < p.nextId) ∧
  (∀ k₁ k₂ f₁ f₂, p.instances.lookup k₁ = some f₁ → p.instances.lookup k₂ = some f₂ →
    k₁ ≠ k₂ → f₁.id ≠ f₂.id) ∧
  (∀ k f, p.instances.lookup k = some f → f.internalName = mkInstanceName p.internalName k)

/-- An empty program state (no primitives registered; used where the
types table is irrelevant). -/
def progStateEmpty : ProgState :=
  { entities := [], elements := [], exports := [], types := [], typeAliases := [], diags := [] }

/-- File `a` of the cyclic re-export program: `export { f } from "b";`. -/
def c1srcA : Source := [.exportStmt ⟨[⟨"f", "f"⟩], some "b", "b", "a"⟩]

/-- File `b` of the cyclic re-export program: `export { f } from "a";`. -/
def c1srcB : Source := [.exportStmt ⟨[⟨"f", "f"⟩], some "a", "a", "b"⟩]

/-- File `main` of the cyclic re-export program: `import { f } from "a";`. -/
def c1srcMain : Source := [.importStmt ⟨some [⟨"f", "main/f", "f"⟩], none, "a", "a", "main"⟩]

/-- The cyclic re-export program of claim C1. -/
def c1prog : List Source := [c1srcA, c1srcB, c1srcMain]

/-- The re-export chain program of claim C2, bound in the order
`a` (`export { f } from "b";`), `b` (`export function f(): void {}`),
`main` (`import { f } from "a";`). -/
def c2prog : List Source :=
  [[.exportStmt ⟨[⟨"f", "f"⟩], some "b", "b", "a"⟩],
   [.decl (.funcDecl "f" "b/f" [.exportMod] [])],
   [.importStmt ⟨some [⟨"f", "main/f", "f"⟩], none, "a", "a", "main"⟩]]

/-- Claim C7's counterexample program: `function g` bound, then
`export { g as f };` filling `exports["src/f"]`, then
`export var f` colliding on that export key. -/
def c7prog : List Source :=
  [[.decl (.funcDecl "g" "src/g" [] []),
    .exportStmt ⟨[⟨"g", "f"⟩], none, "", "src"⟩,
    .decl (.varDecl [⟨"f", "src/f", [.exportMod], []⟩])]]

/-- Claim C9's program: `namespace N { interface I {} }`. -/
def c9prog : List Source :=
  [[.decl (.namespaceDecl "N" "src/N" [] [.interfaceDecl "I" "src/N.I" []])]]

/-- Claim C10's merge program: two plain `namespace N` declarations, the
first containing `function f`, the second `function g`. -/
def c10mergeProg : List Source :=
  [[.decl (.namespaceDecl "N" "src/N" [] [.funcDecl "f" "src/N.f" [] []]),
    .decl (.namespaceDecl "N" "src/N" [] [.funcDecl "g" "src/N.g" [] []])]]

/-- State after binding one plain `namespace N {}` at the top level. -/
def c6st1 : ProgState := initializeNamespace 1 progStateEmpty "N" "src/N" [] [] none

/-- State after binding one `export namespace N {}` at the top level. -/
def c10st1 : ProgState := initializeNamespace 1 progStateEmpty "N" "src/N" [.exportMod] [] none

/-- The generic prototype of claim C4's witness:
`function f<T>(): T` with internal name `src/f`. -/
def c4proto : FunctionPrototype :=
  { simpleName := "f", internalName := "src/f", isSetter := false,
    declaration := { typeParameters := ["T"], parameters := [],
                     returnType := some (.mk "T" [] "s") },
    instances := [], nextId := 0 }

/-- The instance of `c4proto` at `i32`. -/
def c4f1 : FunctionInst :=
  { id := 0, prototypeInternalName := "src/f", internalName := "src/f<i32>",
    typeArguments := some [.i32], parameters := [], returnType := .i32 }

/-- `c4proto` after caching the `i32` instance. -/
def c4p1 : FunctionPrototype :=
  { c4proto with instances := [("i32", c4f1)], nextId := 1 }

/-- The instance of `c4proto` at `i64`. -/
def c4f2 : FunctionInst :=
  { id := 1, prototypeInternalName := "src/f", internalName := "src/f<i64>",
    typeArguments := some [.i64], parameters := [], returnType := .i64 }

/-- `c4p1` after additionally caching the `i64` instance. -/
def c4p2 : FunctionPrototype :=
  { c4p1 with instances := ("i64", c4f2) :: c4p1.instances, nextId := 2 }

/-- The program state the binder phase produces on `c1prog` (no entities;
both exports stay queued). -/
def c1st : ProgState :=
  { entities := [], elements := [], exports := [], types := initialTypes .wasm32,
    typeAliases := [], diags := [] }

/-- The queued exports the binder phase produces on `c1prog`: the walk in
`initializeExport` advances file `b`'s referenced name onto the cycle, so
the second entry ends up referring to its own key. -/
def c1qes : List (String × QueuedExport) :=
  [("a/f", ⟨true, "b/f", "f", "f", "b"⟩), ("b/f", ⟨true, "b/f", "f", "f", "a"⟩)]

/-- The queued import the binder phase produces on `c1prog`. -/
def c1qi : QueuedImport := ⟨"main/f", "b/f", "a", "f"⟩

/-- A state whose `exports` already binds `src/f` (witness input). -/
def c7wst : ProgState := { progStateEmpty with exports := [("src/f", some 0)] }

/-- A state whose `types` already binds a bare name (witness input). -/
def c6wst : ProgState := { progStateEmpty with types := [("alias0", Ty.i32)] }

/-- The tail of the identifier lookup (namespace chain, file, global)
agrees with the first hit over the flattened candidate list. -/
theorem resolveIdentifier_tail_eq (elems : JsMap) (srcPath name : String) :
    ∀ l : List String,
      (match resolveIdentifierNs elems name l with
       | some e => (some e, ([] : List Diag))
       | none =>
         match jsGet elems (srcPath ++ PATH_DELIMITER ++ name) with
         | some e => (some e, [])
         | none =>
           match jsGet elems name with
           | some e => (some e, [])
           | none => (none, [⟨.Cannot_find_name_0, [name]⟩]))
      = match
          List.findSome? (fun x => x)
            ((l.map (fun ns => jsGet elems (ns ++ STATIC_DELIMITER ++ name))) ++
              [jsGet elems (srcPath ++ PATH_DELIMITER ++ name), jsGet elems name]) with
        | some e => (some e, [])
        | none => (none, [⟨.Cannot_find_name_0, [name]⟩]) := by
  intro l
  induction l with
  | nil =>
    simp only [resolveIdentifierNs, List.map_nil, List.nil_append, List.findSome?]
    cases h1 : jsGet elems (srcPath ++ PATH_DELIMITER ++ name) with
    | some e => rfl
    | none =>
      cases h2 : jsGet elems name with
      | some e => rfl
      | none => rfl
  | cons a l ih =>
    simp only [resolveIdentifierNs, List.map_cons, List.cons_append, List.findSome?]
    cases h : jsGet elems (a ++ STATIC_DELIMITER ++ name) with
    | some e => rfl
    | none => exact ih

/-- On the cyclic queued exports of `c1prog`, `tryResolveImport` runs out
of any amount of fuel: the loop never returns. -/
theorem tryResolveImport_c1 :
    ∀ fuel, tryResolveImport c1st.exports c1st.elements c1qes fuel c1qi.referencedName = none := by
  intro fuel
  induction fuel with
  | zero => rfl
  | succ n ih =>
    show tryResolveImport c1st.exports c1st.elements c1qes n c1qi.referencedName = none
    exact ih

/-- Reading the last appended entity of the arena yields that entity. -/
theorem getD_concat (l : List EntityData) (e : EntityData) :
    (l ++ [e]).getD l.length default = e := by
  simp [List.getD, List.getElem?_concat_length]

/-- Diagnostics of a list resolution all satisfy a predicate that the
element resolver's diagnostics satisfy. -/
theorem resolveEach_diag {P : Diag → Prop} {r : TypeNode → Option (Option Ty × List Diag)}
    (hr : ∀ n x ds, r n = some (x, ds) → ∀ d ∈ ds, P d) :
    ∀ l x ds, resolveEach r l = some (x, ds) → ∀ d ∈ ds, P d := by
  intro l
  induction l with
  | nil =>
    intro x ds h
    simp only [resolveEach, Option.some.injEq, Prod.mk.injEq] at h
    rcases h with ⟨-, rfl⟩
    simp
  | cons n rest ih =>
    intro x ds h
    simp only [resolveEach] at h
    cases hrn : r n with
    | none => rw [hrn] at h; cases h
    | some v =>
      obtain ⟨x1, ds1⟩ := v
      cases x1 with
      | none =>
        simp only [hrn, Option.some.injEq, Prod.mk.injEq] at h
        rcases h with ⟨-, rfl⟩
        exact hr n _ _ hrn
      | some t =>
        cases hrest : resolveEach r rest with
        | none => simp only [hrn, hrest] at h; cases h
        | some w =>
          obtain ⟨x2, ds2⟩ := w
          cases x2 <;>
            · simp only [hrn, hrest, Option.some.injEq, Prod.mk.injEq] at h
              rcases h with ⟨-, rfl⟩
              intro d hd
              rcases List.mem_append.mp hd with hd1 | hd2
              · exact hr n _ _ hrn d hd1
              · exact ih _ _ hrest d hd2

/-- The lookup tail of `resolveType` only ever adds `Cannot_find_name_0`
diagnostics. -/
theorem resolveTypeLookup_diag {r : TypeNode → Option (Option Ty × List Diag)}
    (hr : ∀ n x ds, r n = some (x, ds) → ∀ d ∈ ds, d.code = .Cannot_find_name_0)
    (st : ProgState) (srcPath g : String) (rep : Bool) (ds0 : List Diag)
    (h0 : ∀ d ∈ ds0, d.code = .Cannot_find_name_0) :
    ∀ x ds, resolveTypeLookup r st srcPath g rep ds0 = some (x, ds) →
      ∀ d ∈ ds, d.code = .Cannot_find_name_0 := by
  intro x ds h
  simp only [resolveTypeLookup] at h
  cases h1 : st.types.lookup (srcPath ++ PATH_DELIMITER ++ g) with
  | some t =>
    simp only [h1, Option.some.injEq, Prod.mk.injEq] at h
    rcases h with ⟨-, rfl⟩; exact h0
  | none =>
    cases h2 : st.types.lookup g with
    | some t =>
      simp only [h1, h2, Option.some.injEq, Prod.mk.injEq] at h
      rcases h with ⟨-, rfl⟩; exact h0
    | none =>
      cases h3 : st.typeAliases.lookup g with
      | some aNode =>
        cases h4 : r aNode with
        | none => simp only [h1, h2, h3, h4] at h; cases h
        | some v =>
          obtain ⟨x1, ds1⟩ := v
          cases x1 with
          | some t =>
            simp only [h1, h2, h3, h4, Option.some.injEq, Prod.mk.injEq] at h
            rcases h with ⟨-, rfl⟩
            intro d hd
            rcases List.mem_append.mp hd with hd1 | hd2
            · exact h0 d hd1
            · exact hr _ _ _ h4 d hd2
          | none =>
            simp only [h1, h2, h3, h4, Option.some.injEq, Prod.mk.injEq] at h
            rcases h with ⟨-, rfl⟩
            intro d hd
            rcases List.mem_append.mp hd with hd1 | hd2
            · rcases List.mem_append.mp hd1 with hda | hdb
              · exact h0 d hda
              · exact hr _ _ _ h4 d hdb
            · cases rep with
              | false => simp at hd2
              | true => simp at hd2; rw [hd2]; rfl
      | none =>
        simp only [h1, h2, h3, Option.some.injEq, Prod.mk.injEq] at h
        rcases h with ⟨-, rfl⟩
        intro d hd
        rcases List.mem_append.mp hd with hd1 | hd2
        · exact h0 d hd1
        · cases rep with
          | false => simp at hd2
          | true => simp at hd2; rw [hd2]; rfl

/-- Every diagnostic `resolveType` emits is a `Cannot_find_name_0`. -/
theorem resolveType_diag :
    ∀ (st : ProgState) (fuel : Nat) (node : TypeNode) (ctx : Option (List (String × Ty)))
      (rep : Bool) (x : Option Ty) (ds : List Diag),
      resolveType st fuel node ctx rep = some (x, ds) → ∀ d ∈ ds, d.code = .Cannot_find_name_0 := by
  intro st fuel
  induction fuel with
  | zero => intro node ctx rep x ds h; cases h
  | succ fuel ih =>
    intro node ctx rep x ds h
    obtain ⟨name, args, srcPath⟩ := node
    simp only [resolveType] at h
    cases he : resolveEach (fun n => resolveType st fuel n ctx rep) args with
    | none => rw [he] at h; cases h
    | some v =>
      obtain ⟨pv, ds0⟩ := v
      have h0 : ∀ d ∈ ds0, d.code = .Cannot_find_name_0 :=
        resolveEach_diag (fun n x1 ds1 hh => ih n ctx rep x1 ds1 hh) args pv ds0 he
      cases pv with
      | none =>
        simp only [he, Option.some.injEq, Prod.mk.injEq] at h
        rcases h with ⟨-, rfl⟩; exact h0
      | some pts =>
        simp only [he] at h
        by_cases hargs : args.length ≠ 0
        · rw [if_pos hargs] at h
          exact resolveTypeLookup_diag (fun n x1 ds1 hh => ih n none rep x1 ds1 hh)
            st srcPath _ rep ds0 h0 x ds h
        · rw [if_neg hargs] at h
          cases hp : ctxFind ctx name with
          | some t =>
            simp only [hp, Option.some.injEq, Prod.mk.injEq] at h
            rcases h with ⟨-, rfl⟩; exact h0
          | none =>
            simp only [hp] at h
            exact resolveTypeLookup_diag (fun n x1 ds1 hh => ih n none rep x1 ds1 hh)
              st srcPath _ rep ds0 h0 x ds h

/-- Lookup of a just-stored instance-cache binding. -/
theorem lookup_inst_cons_self (k : String) (f : FunctionInst) (l : List (String × FunctionInst)) :
    List.lookup k ((k, f) :: l) = some f := by
  simp [List.lookup]

/-- Instance-cache lookup skips a binding with a different key. -/
theorem lookup_inst_cons_ne {k a : String} (h : k ≠ a) (f : FunctionInst)
    (l : List (String × FunctionInst)) :
    List.lookup k ((a, f) :: l) = List.lookup k l := by
  simp [List.lookup, beq_eq_false_iff_ne.mpr h]

/-- A successful `FunctionPrototype.resolve` either returned the cached
instance unchanged or created a fresh one (fresh id, suffixed internal
name) and cached it. -/
theorem resolve_cases {st : ProgState} {fuel : Nat} {p : FunctionPrototype}
    {ta : Option (List Ty)} {ctx : Option (List (String × Ty))}
    {f : FunctionInst} {p' : FunctionPrototype} {ds : List Diag}
    (h : FunctionPrototype.resolve st fuel p ta ctx = some (some f, p', ds)) :
    (p.instances.lookup (instKeyOf ta) = some f ∧ p' = p) ∨
    (p.instances.lookup (instKeyOf ta) = none ∧ f.id = p.nextId ∧
     f.internalName = mkInstanceName p.internalName (instKeyOf ta) ∧
     p'.instances = (instKeyOf ta, f) :: p.instances ∧ p'.nextId = p.nextId + 1 ∧
     p'.internalName = p.internalName) := by
  simp only [FunctionPrototype.resolve] at h
  cases hl : p.instances.lookup (instKeyOf ta) with
  | some inst =>
    simp only [hl, Option.some.injEq, Prod.mk.injEq] at h
    obtain ⟨hf, hp, -⟩ := h
    subst hf; subst hp
    left
    exact ⟨rfl, rfl⟩
  | none =>
    cases hs : resolveSignature st fuel p ta ctx with
    | none => simp only [hl, hs] at h; cases h
    | some v =>
      obtain ⟨sig, ds1⟩ := v
      cases sig with
      | none => simp only [hl, hs] at h; simp at h
      | some s =>
        simp only [hl, hs, Option.some.injEq, Prod.mk.injEq] at h
        obtain ⟨hf, hp, -⟩ := h
        subst hf; subst hp
        right
        exact ⟨rfl, rfl, rfl, rfl, rfl, rfl⟩

/-- After a successful `resolve`, the key's cache slot holds the returned
instance. -/
theorem resolve_lookup_after {st fuel p ta ctx f p' ds}
    (h : FunctionPrototype.resolve st fuel p ta ctx = some (some f, p', ds)) :
    p'.instances.lookup (instKeyOf ta) = some f := by
  rcases resolve_cases h with ⟨hl, rfl⟩ | ⟨-, -, -, hi, -, -⟩
  · exact hl
  · rw [hi]; exact lookup_inst_cons_self _ _ _

/-- The instance cache is append-only across a successful `resolve`. -/
theorem resolve_mono {st fuel p ta ctx f p' ds}
    (h : FunctionPrototype.resolve st fuel p ta ctx = some (some f, p', ds)) :
    ∀ k g, p.instances.lookup k = some g → p'.instances.lookup k = some g := by
  intro k g hk
  rcases resolve_cases h with ⟨-, rfl⟩ | ⟨hl, -, -, hi, -, -⟩
  · exact hk
  · rw [hi]
    by_cases hkey : k = instKeyOf ta
    · rw [hkey] at hk; rw [hk] at hl; cases hl
    · rw [lookup_inst_cons_ne hkey]; exact hk

/-- `resolve` preserves the well-formedness of the instance cache. -/
theorem resolve_wf {st fuel p ta ctx f p' ds}
    (hwf : protoWF p)
    (h : FunctionPrototype.resolve st fuel p ta ctx = some (some f, p', ds)) :
    protoWF p' := by
  obtain ⟨hid, hdist, hname⟩ := hwf
  rcases resolve_cases h with ⟨-, rfl⟩ | ⟨hl, hfid, hfname, hi, hn, hbase⟩
  · exact ⟨hid, hdist, hname⟩
  · refine ⟨?_, ?_, ?_⟩
    · intro k g hk
      rw [hi] at hk
      by_cases hkey : k = instKeyOf ta
      · subst hkey
        rw [lookup_inst_cons_self] at hk
        cases hk
        rw [hfid, hn]
        omega
      · rw [lookup_inst_cons_ne hkey] at hk
        have := hid k g hk
        omega
    · intro k1 k2 g1 g2 hk1 hk2 hne
      rw [hi] at hk1 hk2
      by_cases h1 : k1 = instKeyOf ta
      · subst h1
        rw [lookup_inst_cons_self] at hk1
        cases hk1
        have h2 : k2 ≠ instKeyOf ta := fun hc => hne hc.symm
        rw [lookup_inst_cons_ne h2] at hk2
        have := hid k2 g2 hk2
        rw [hfid]
        omega
      · rw [lookup_inst_cons_ne h1] at hk1
        by_cases h2 : k2 = instKeyOf ta
        · subst h2
          rw [lookup_inst_cons_self] at hk2
          cases hk2
          have := hid k1 g1 hk1
          rw [hfid]
          omega
        · rw [lookup_inst_cons_ne h2] at hk2
          exact hdist k1 k2 g1 g2 hk1 hk2 hne
    · intro k g hk
      rw [hi] at hk
      by_cases hkey : k = instKeyOf ta
      · subst hkey
        rw [lookup_inst_cons_self] at hk
        cases hk
        rw [hfname, hbase]
      · rw [lookup_inst_cons_ne hkey] at hk
        rw [hbase]
        exact hname k g hk

/-- `resolve` never changes the prototype's internal name. -/
theorem resolve_base {st fuel p ta ctx f p' ds}
    (h : FunctionPrototype.resolve st fuel p ta ctx = some (some f, p', ds)) :
    p'.internalName = p.internalName := by
  rcases resolve_cases h with ⟨-, rfl⟩ | ⟨-, -, -, -, -, hbase⟩
  · rfl
  · exact hbase

/-- Claim C1 (code bug): on the cyclic re-export program — file `a`
re-exports `f` from `b`, file `b` re-exports `f` from `a`, file `main`
imports `f` from `a` — `Program.initialize` does NOT terminate: the
queued-import post-pass calls `tryResolveImport`, whose re-export chase
has no cycle guard, so the fuel-indexed model yields no result for any
amount of fuel, instead of the claimed single
`Module_0_has_no_exported_member_1` diagnostic. -/
theorem c1_reexport_cycle_nontermination :
    ∀ fuel, initializeProgram fuel c1prog .wasm32 = none := by
  intro fuel
  have ht := tryResolveImport_c1 fuel
  show (match runQueuedImports fuel c1st c1qes [c1qi] with
        | none => (none : Option ProgState)
        | some st1 => runQueuedExports fuel st1 c1qes c1qes) = none
  rw [runQueuedImports, ht]

/-- Claim C2 (code bug): binding the re-export chain in source order
`a` (`export { f } from "b";`), `b` (`export function f(): void {}`),
`main` (`import { f } from "a";`), the import walk checks
`exports.has(queuedExport.referencedName)` but then stores
`exports.get(referencedName)` with the stale pre-advance name, so
`elements["main/f"]` ends up bound to `undefined` (present key, stored
`none`) instead of the function entity (entity 0), while `exports["a/f"]`
and `exports["b/f"]` are both that entity. -/
theorem c2_stale_reexport_import :
    (initializeProgram 20 c2prog .wasm32).map
      (fun st => (st.elements.lookup "main/f", jsGet st.exports "a/f", jsGet st.exports "b/f",
                  jsGet st.elements "b/f", st.diags))
      = some (some none, some 0, some 0, some 0, []) := by rfl

/-- Claim C3 (confirmed): `resolveIdentifier` returns the first hit in
the fixed order — the contextual function's locals, each enclosing
namespace of its prototype (probing `<nsInternal>.<name>` along the
namespace chain), the current file's `<srcPath>/<name>`, then the global
`<name>` — and emits `Cannot_find_name_0` with failure exactly when all
candidates miss: it coincides with the spec-ordered candidate-list
lookup on every input. -/
theorem c3_scope_order :
    ∀ (elems : JsMap) (cf : CtxFunction) (srcPath name : String),
      resolveIdentifier elems cf srcPath name = resolveIdentifierOrdered elems cf srcPath name := by
  intro elems cf srcPath name
  unfold resolveIdentifier resolveIdentifierOrdered
  simp only [List.cons_append, List.nil_append, List.findSome?]
  cases h0 : jsGet cf.locals name with
  | some l => rfl
  | none => exact resolveIdentifier_tail_eq elems srcPath name cf.nsChain

/-- Claim C4 (confirmed): for a well-formed prototype, two successful
`FunctionPrototype.resolve` calls whose type-argument lists serialize to
the same `typesToString` key return the identical `Function` object (and
leave the cache untouched on the second call); calls with distinct keys
return distinct objects; the instance cache is append-only across both
calls; and the first instance's internal name is the prototype's internal
name suffixed with the angle-bracketed key exactly when it is non-empty. -/
theorem c4_monomorphization_cache :
    ∀ (st : ProgState) (p : FunctionPrototype) (fuel1 fuel2 : Nat)
      (ta1 ta2 : Option (List Ty)) (ctx1 ctx2 : Option (List (String × Ty)))
      (f1 f2 : FunctionInst) (p1 p2 : FunctionPrototype) (ds1 ds2 : List Diag),
      protoWF p →
      FunctionPrototype.resolve st fuel1 p ta1 ctx1 = some (some f1, p1, ds1) →
      FunctionPrototype.resolve st fuel2 p1 ta2 ctx2 = some (some f2, p2, ds2) →
      ((instKeyOf ta1 = instKeyOf ta2 → f2 = f1 ∧ p2 = p1) ∧
       (instKeyOf ta1 ≠ instKeyOf ta2 → f1 ≠ f2) ∧
       (∀ k g, p.instances.lookup k = some g → p1.instances.lookup k = some g) ∧
       (∀ k g, p1.instances.lookup k = some g → p2.instances.lookup k = some g) ∧
       f1.internalName = mkInstanceName p.internalName (instKeyOf ta1)) := by
  intro st p fuel1 fuel2 ta1 ta2 ctx1 ctx2 f1 f2 p1 p2 ds1 ds2 hwf h1 h2
  have hL1 := resolve_lookup_after h1
  have hwf1 := resolve_wf hwf h1
  have hbase1 := resolve_base h1
  refine ⟨?_, ?_, resolve_mono h1, resolve_mono h2, ?_⟩
  · intro he
    have hL1' : p1.instances.lookup (instKeyOf ta2) = some f1 := he ▸ hL1
    have h2' : FunctionPrototype.resolve st fuel2 p1 ta2 ctx2 = some (some f1, p1, []) := by
      simp [FunctionPrototype.resolve, hL1']
    rw [h2'] at h2
    simp only [Option.some.injEq, Prod.mk.injEq] at h2
    obtain ⟨hf, hp, -⟩ := h2
    exact ⟨hf.symm, hp.symm⟩
  · intro hne heq
    have hid1 : f1.id < p1.nextId := hwf1.1 _ _ hL1
    rcases resolve_cases h2 with ⟨hl2, -⟩ | ⟨-, hid2, -, -, -, -⟩
    · exact hwf1.2.1 _ _ _ _ hL1 hl2 hne (congrArg FunctionInst.id heq)
    · rw [heq] at hid1
      omega
  · have := hwf1.2.2 _ _ hL1
    rw [this, hbase1]

/-- Witness for C4: the generic prototype `f<T>(): T` resolved at `i32`
and then at `i64` produces the cached states and distinct instances the
theorem predicts. -/
theorem c4_monomorphization_cache_witness :
    protoWF c4proto ∧
    FunctionPrototype.resolve progStateEmpty 3 c4proto (some [.i32]) none
      = some (some c4f1, c4p1, []) ∧
    FunctionPrototype.resolve progStateEmpty 3 c4p1 (some [.i64]) none
      = some (some c4f2, c4p2, []) ∧
    c4f1 ≠ c4f2 ∧
    c4f1.internalName = mkInstanceName c4proto.internalName (instKeyOf (some [.i32])) := by
  have hwf : protoWF c4proto := by
    refine ⟨?_, ?_, ?_⟩
    · intro k f h; simp [c4proto] at h
    · intro k1 k2 f1 f2 h1 h2 hne; simp [c4proto] at h1
    · intro k f h; simp [c4proto] at h
  have h1 : FunctionPrototype.resolve progStateEmpty 3 c4proto (some [.i32]) none
      = some (some c4f1, c4p1, []) := by rfl
  have h2 : FunctionPrototype.resolve progStateEmpty 3 c4p1 (some [.i64]) none
      = some (some c4f2, c4p2, []) := by rfl
  have hmain := c4_monomorphization_cache progStateEmpty c4proto 3 3 (some [.i32]) (some [.i64])
    none none c4f1 c4f2 c4p1 c4p2 [] [] hwf h1 h2
  exact ⟨hwf, h1, h2, hmain.2.1 (by decide), hmain.2.2.2.2⟩

/-- Claim C5 counterexample: with one type parameter, no supplied
type-argument nodes and no alternative report node, the counts differ
(1 against 0) and yet `resolveTypeArguments` emits no diagnostic at all,
refuting the claimed "emits iff the lengths differ". -/
theorem c5_counterexample :
    (["T"].length ≠ argCountOf none) ∧
    resolveTypeArguments progStateEmpty 1 ["T"] none none false = some (none, []) := by
  exact ⟨by decide, rfl⟩

/-- Claim C5 (corrected): `resolveTypeArguments` emits
`Expected_0_type_arguments_but_got_1` iff the counts differ AND at least
one argument node was supplied or an alternative report node was given
(the all-absent mismatch is silent); every mismatch returns failure
before resolving any argument, and with equal counts the diagnostic is
never emitted. -/
theorem c5_arity :
    ∀ (st : ProgState) (fuel : Nat) (typeParameters : List String)
      (typeArgumentNodes : Option (List TypeNode)) (ctx : Option (List (String × Ty)))
      (alt : Bool),
      (typeParameters.length ≠ argCountOf typeArgumentNodes →
        (argCountOf typeArgumentNodes ≠ 0 ∨ alt = true →
          resolveTypeArguments st fuel typeParameters typeArgumentNodes ctx alt
            = some (none, [expectedDiag typeParameters.length (argCountOf typeArgumentNodes)])) ∧
        (argCountOf typeArgumentNodes = 0 → alt = false →
          resolveTypeArguments st fuel typeParameters typeArgumentNodes ctx alt
            = some (none, []))) ∧
      (typeParameters.length = argCountOf typeArgumentNodes →
        ∀ x ds, resolveTypeArguments st fuel typeParameters typeArgumentNodes ctx alt = some (x, ds) →
          ∀ d ∈ ds, d.code ≠ .Expected_0_type_arguments_but_got_1) := by
  intro st fuel tps nodes ctx alt
  constructor
  · intro hne
    constructor
    · intro hor
      simp only [resolveTypeArguments]
      rw [if_pos hne]
      rcases Decidable.em (argCountOf nodes ≠ 0) with h0 | h0
      · rw [if_pos h0]
      · have halt : alt = true := by
          rcases hor with h | h
          · exact absurd h h0
          · exact h
        have h00 : argCountOf nodes = 0 := by omega
        rw [if_neg h0, halt, if_pos rfl, h00]
    · intro h0 halt
      simp only [resolveTypeArguments]
      rw [if_pos hne, h0, halt]
      simp
  · intro heq x ds h
    simp only [resolveTypeArguments] at h
    rw [if_neg (not_not_intro heq)] at h
    intro d hd
    have := resolveEach_diag
      (fun n x1 ds1 hh => resolveType_diag st fuel n ctx true x1 ds1 hh) _ x ds h d hd
    rw [this]
    intro hcon
    cases hcon

/-- Witness for C5: two type parameters against one supplied node emit
the arity diagnostic; one parameter against zero nodes without a report
node is silent; equal counts never emit the arity diagnostic. -/
theorem c5_arity_witness :
    (["T", "U"].length ≠ argCountOf (some [TypeNode.mk "X" [] "s"])) ∧
    resolveTypeArguments progStateEmpty 1 ["T", "U"] (some [TypeNode.mk "X" [] "s"]) none false
      = some (none, [expectedDiag 2 1]) ∧
    resolveTypeArguments progStateEmpty 1 ["T"] none none false = some (none, []) ∧
    (∀ d ∈ ([] : List Diag), d.code ≠ .Expected_0_type_arguments_but_got_1) := by
  refine ⟨by decide, ?_, ?_, ?_⟩
  · exact ((c5_arity progStateEmpty 1 ["T", "U"] (some [TypeNode.mk "X" [] "s"]) none false).1
      (by decide)).1 (Or.inl (by decide))
  · exact ((c5_arity progStateEmpty 1 ["T"] none none false).1 (by decide)).2 rfl rfl
  · exact (c5_arity progStateEmpty 1 [] none none false).2 rfl (some []) [] rfl

/-- Claim C6 counterexample: after binding one plain `namespace N {}`,
its internal name `src/N` is a key of `elements`, yet binding a second
namespace declaration with the same internal name emits NO diagnostic
and changes nothing at all — refuting "exactly one Duplicate_identifier_0
is emitted" for namespace declarations. -/
theorem c6_counterexample :
    jsHas c6st1.elements "src/N" = true ∧
    initializeNamespace 1 c6st1 "N" "src/N" [] [] none = c6st1 ∧
    c6st1.diags = [] := ⟨rfl, rfl, rfl⟩

/-- Claim C6 (corrected): for class, enum, function, interface, variable
and import declarations whose internal name is already a key of
`elements`, exactly one `Duplicate_identifier_0` is emitted and the state
is otherwise unchanged (the new entity is not inserted and the first
binding is preserved); a type alias is checked by simple name against
`types`/`typeAliases` with the same outcome.  (Namespace declarations are
the exception: they merge silently, see claim C10.) -/
theorem c6_duplicate_reporting :
    ∀ st : ProgState,
      (∀ name iname mods decs ns, jsHas st.elements iname = true →
        initializeClass st name iname mods decs ns = st.error .Duplicate_identifier_0 [iname]) ∧
      (∀ name iname mods values ns, jsHas st.elements iname = true →
        initializeEnum st name iname mods values ns = st.error .Duplicate_identifier_0 [iname]) ∧
      (∀ name iname mods decs ns, jsHas st.elements iname = true →
        initializeFunction st name iname mods decs ns = st.error .Duplicate_identifier_0 [iname]) ∧
      (∀ name iname mods ns, jsHas st.elements iname = true →
        initializeInterface st name iname mods ns = st.error .Duplicate_identifier_0 [iname]) ∧
      (∀ d ns, jsHas st.elements d.internalName = true →
        initializeVariables st [d] ns = st.error .Duplicate_identifier_0 [d.internalName]) ∧
      (∀ qes qis ip path d, jsHas st.elements d.internalName = true →
        initializeImport st qes qis ip path d
          = (st.error .Duplicate_identifier_0 [d.internalName], qis)) ∧
      (∀ name aNode ns,
        ((st.types.lookup name).isSome || (st.typeAliases.lookup name).isSome) = true →
        initializeType st name aNode ns = st.error .Duplicate_identifier_0 [name]) := by
  intro st
  refine ⟨?_, ?_, ?_, ?_, ?_, ?_, ?_⟩
  · intro name iname mods decs ns h; simp [initializeClass, h]
  · intro name iname mods values ns h; simp [initializeEnum, h]
  · intro name iname mods decs ns h; simp [initializeFunction, h]
  · intro name iname mods ns h; simp [initializeInterface, h]
  · intro d ns h; simp [initializeVariables, initializeVariable, h]
  · intro qes qis ip path d h; simp [initializeImport, h]
  · intro name aNode ns h; simp [initializeType, h]

/-- Witness for C6: each duplicate-declaration handler at a concrete
colliding state emits exactly the one diagnostic. -/
theorem c6_duplicate_reporting_witness :
    jsHas c6st1.elements "src/N" = true ∧
    initializeClass c6st1 "C" "src/N" [] [] none
      = c6st1.error .Duplicate_identifier_0 ["src/N"] ∧
    initializeEnum c6st1 "E" "src/N" [] [] none
      = c6st1.error .Duplicate_identifier_0 ["src/N"] ∧
    initializeFunction c6st1 "f" "src/N" [] [] none
      = c6st1.error .Duplicate_identifier_0 ["src/N"] ∧
    initializeInterface c6st1 "I" "src/N" [] none
      = c6st1.error .Duplicate_identifier_0 ["src/N"] ∧
    initializeVariables c6st1 [⟨"v", "src/N", [], []⟩] none
      = c6st1.error .Duplicate_identifier_0 ["src/N"] ∧
    initializeImport c6st1 [] [] "m" "m" ⟨"i", "src/N", "i"⟩
      = (c6st1.error .Duplicate_identifier_0 ["src/N"], []) ∧
    initializeType c6wst "alias0" (.mk "i32" [] "s") none
      = c6wst.error .Duplicate_identifier_0 ["alias0"] := by
  have hc := c6_duplicate_reporting c6st1
  have hw := c6_duplicate_reporting c6wst
  exact ⟨rfl, hc.1 "C" "src/N" [] [] none rfl, hc.2.1 "E" "src/N" [] [] none rfl,
    hc.2.2.1 "f" "src/N" [] [] none rfl, hc.2.2.2.1 "I" "src/N" [] none rfl,
    hc.2.2.2.2.1 ⟨"v", "src/N", [], []⟩ none rfl,
    hc.2.2.2.2.2.1 [] [] "m" "m" ⟨"i", "src/N", "i"⟩ rfl,
    hw.2.2.2.2.2.2 "alias0" (.mk "i32" [] "s") none rfl⟩

/-- Claim C7 counterexample: on the program `function g; export { g as f };
export var f`, the exported variable's internal name `src/f` collides
with the existing `exports` entry, but the emitted diagnostic is
`Duplicate_identifier_0`, not the claimed
`Export_declaration_conflicts_with_exported_declaration_of_0` (the
existing binding, entity 0, is preserved). -/
theorem c7_counterexample :
    (initializeProgram 20 c7prog .wasm32).map (fun st => (st.diags, jsGet st.exports "src/f"))
      = some ([⟨.Duplicate_identifier_0, ["src/f"]⟩], some 0) := by rfl

/-- Claim C7 (corrected): for file-level exported class, enum, function,
interface and namespace declarations whose internal name is already a key
of `exports`, the binder emits
`Export_declaration_conflicts_with_exported_declaration_of_0` and leaves
the existing `exports` binding unchanged; an exported variable
declaration in the same situation instead emits `Duplicate_identifier_0`
(likewise leaving `exports` unchanged). -/
theorem c7_export_conflict :
    ∀ st : ProgState,
      (∀ name iname mods decs,
        st.elements.lookup iname = none → hasModifier .exportMod mods = true →
        hasDecorator "global" decs = false → jsHas st.exports iname = true →
        (initializeClass st name iname mods decs none).exports = st.exports ∧
        (initializeClass st name iname mods decs none).diags = st.diags ++
          [⟨.Export_declaration_conflicts_with_exported_declaration_of_0, [iname]⟩]) ∧
      (∀ name iname mods values,
        st.elements.lookup iname = none → hasModifier .exportMod mods = true →
        jsHas st.exports iname = true →
        (initializeEnum st name iname mods values none).exports = st.exports ∧
        (initializeEnum st name iname mods values none).diags = st.diags ++
          [⟨.Export_declaration_conflicts_with_exported_declaration_of_0, [iname]⟩]) ∧
      (∀ name iname mods decs,
        st.elements.lookup iname = none → hasModifier .exportMod mods = true →
        hasDecorator "global" decs = false → jsHas st.exports iname = true →
        (initializeFunction st name iname mods decs none).exports = st.exports ∧
        (initializeFunction st name iname mods decs none).diags = st.diags ++
          [⟨.Export_declaration_conflicts_with_exported_declaration_of_0, [iname]⟩]) ∧
      (∀ name iname mods,
        st.elements.lookup iname = none → hasModifier .exportMod mods = true →
        jsHas st.exports iname = true →
        (initializeInterface st name iname mods none).exports = st.exports ∧
        (initializeInterface st name iname mods none).diags = st.diags ++
          [⟨.Export_declaration_conflicts_with_exported_declaration_of_0, [iname]⟩]) ∧
      (∀ fuel name iname mods members,
        st.elements.lookup iname = none → hasModifier .exportMod mods = true →
        jsHas st.exports iname = true →
        (initializeNamespace fuel st name iname mods members none).exports = st.exports ∧
        (initializeNamespace fuel st name iname mods members none).diags = st.diags ++
          [⟨.Export_declaration_conflicts_with_exported_declaration_of_0, [iname]⟩]) ∧
      (∀ d : VariableDeclarationAst,
        st.elements.lookup d.internalName = none →
        hasModifier .exportMod d.modifiers = true →
        hasDecorator "global" d.decorators = false → jsHas st.exports d.internalName = true →
        (initializeVariables st [d] none).exports = st.exports ∧
        (initializeVariables st [d] none).diags = st.diags ++
          [⟨.Duplicate_identifier_0, [d.internalName]⟩]) := by
  intro st
  refine ⟨?_, ?_, ?_, ?_, ?_, ?_⟩
  · intro name iname mods decs h1 h2 h3 h4
    have h4' : (st.exports.lookup iname).isSome = true := h4
    simp [initializeClass, jsHas, h1, h2, h3, h4', getD_concat, ProgState.alloc,
      ProgState.getEnt, ProgState.error, mkClassProtoData]
  · intro name iname mods values h1 h2 h4
    have h4' : (st.exports.lookup iname).isSome = true := h4
    simp [initializeEnum, jsHas, h1, h2, h4', getD_concat, ProgState.alloc,
      ProgState.getEnt, ProgState.error, mkEnumData]
  · intro name iname mods decs h1 h2 h3 h4
    have h4' : (st.exports.lookup iname).isSome = true := h4
    simp [initializeFunction, jsHas, h1, h2, h3, h4', getD_concat, ProgState.alloc,
      ProgState.getEnt, ProgState.error, mkFunctionProtoData]
  · intro name iname mods h1 h2 h4
    have h4' : (st.exports.lookup iname).isSome = true := h4
    simp [initializeInterface, jsHas, h1, h2, h4', getD_concat, ProgState.alloc,
      ProgState.getEnt, ProgState.error, mkInterfaceProtoData, mkClassProtoData]
  · intro fuel name iname mods members h1 h2 h4
    have h4' : (st.exports.lookup iname).isSome = true := h4
    simp [initializeNamespace, initializeNamespaceGo, jsGet, jsHas, h1, h2, h4', getD_concat,
      ProgState.alloc, ProgState.getEnt, ProgState.error, mkNamespaceData]
  · intro d h1 h2 h3 h4
    have h4' : (st.exports.lookup d.internalName).isSome = true := h4
    simp [initializeVariables, initializeVariable, jsHas, h1, h2, h3, h4', getD_concat,
      ProgState.alloc, ProgState.getEnt, ProgState.error, mkGlobalData]

/-- Witness for C7: each exported declaration kind colliding with the
concrete `exports` entry `src/f` produces the stated diagnostic with
`exports` unchanged. -/
theorem c7_export_conflict_witness :
    c7wst.elements.lookup "src/f" = none ∧ jsHas c7wst.exports "src/f" = true ∧
    ((initializeClass c7wst "f" "src/f" [.exportMod] [] none).exports = c7wst.exports ∧
     (initializeClass c7wst "f" "src/f" [.exportMod] [] none).diags = c7wst.diags ++
       [⟨.Export_declaration_conflicts_with_exported_declaration_of_0, ["src/f"]⟩]) ∧
    ((initializeNamespace 1 c7wst "f" "src/f" [.exportMod] [] none).exports = c7wst.exports ∧
     (initializeNamespace 1 c7wst "f" "src/f" [.exportMod] [] none).diags = c7wst.diags ++
       [⟨.Export_declaration_conflicts_with_exported_declaration_of_0, ["src/f"]⟩]) ∧
    ((initializeVariables c7wst [⟨"f", "src/f", [.exportMod], []⟩] none).exports = c7wst.exports ∧
     (initializeVariables c7wst [⟨"f", "src/f", [.exportMod], []⟩] none).diags = c7wst.diags ++
       [⟨.Duplicate_identifier_0, ["src/f"]⟩]) := by
  have h := c7_export_conflict c7wst
  exact ⟨rfl, rfl, h.1 "f" "src/f" [.exportMod] [] rfl rfl rfl rfl,
    h.2.2.2.2.1 1 "f" "src/f" [.exportMod] [] rfl rfl rfl,
    h.2.2.2.2.2 ⟨"f", "src/f", [.exportMod], []⟩ rfl rfl rfl rfl⟩

/-- Claim C8 (confirmed): once the type arguments of a node resolve, the
candidate name is looked up in the fixed order — file-local `types`,
program-global `types`, then `typeAliases` with the alias resolved by a
recursive call passing no contextual arguments, a full miss emitting
`Cannot_find_name_0` exactly when `reportNotFound` and failing either way
(`resolveTypeOrdered` states exactly that order) — and the contextual
placeholder for the bare name is consulted (and then wins) only when the
node has no type arguments. -/
theorem c8_lookup_order :
    ∀ (st : ProgState) (fuel : Nat) (name : String) (args : List TypeNode) (srcPath : String)
      (ctx : Option (List (String × Ty))) (rep : Bool) (pts : List Ty) (ds0 : List Diag),
      resolveEach (fun n => resolveType st fuel n ctx rep) args = some (some pts, ds0) →
      ((args ≠ [] →
        resolveType st (fuel + 1) (.mk name args srcPath) ctx rep
          = resolveTypeOrdered st fuel srcPath (name ++ typesToString pts "<" ">") rep ds0) ∧
       (args = [] → ctxFind ctx name = none →
        resolveType st (fuel + 1) (.mk name args srcPath) ctx rep
          = resolveTypeOrdered st fuel srcPath name rep ds0) ∧
       (∀ t, args = [] → ctxFind ctx name = some t →
        resolveType st (fuel + 1) (.mk name args srcPath) ctx rep = some (some t, ds0))) := by
  intro st fuel name args srcPath ctx rep pts ds0 he
  refine ⟨?_, ?_, ?_⟩
  · intro hne
    have hlen : args.length ≠ 0 := by
      intro hc; exact hne (List.length_eq_zero.mp hc)
    simp only [resolveType, he]
    rw [if_pos hlen]
    rfl
  · intro hnil hctx
    subst hnil
    simp only [resolveType, he]
    rw [if_neg (by simp)]
    simp only [hctx]
    rfl
  · intro t hnil hctx
    subst hnil
    simp only [resolveType, he]
    rw [if_neg (by simp)]
    simp only [hctx]

/-- Witness for C8: a bare `i32` node with no contextual arguments takes
the ordered lookup path, and a placeholder hit takes precedence when the
node has no type arguments. -/
theorem c8_lookup_order_witness :
    resolveEach (fun n => resolveType progStateEmpty 0 n none true) [] = some (some [], []) ∧
    resolveType progStateEmpty 1 (.mk "i32" [] "s") none true
      = resolveTypeOrdered progStateEmpty 0 "s" "i32" true [] ∧
    resolveType progStateEmpty 1 (.mk "T" [] "s") (some [("T", .i32)]) true
      = some (some .i32, []) := by
  refine ⟨rfl, ?_, ?_⟩
  · exact (c8_lookup_order progStateEmpty 0 "i32" [] "s" none true [] [] rfl).2.1 rfl rfl
  · exact (c8_lookup_order progStateEmpty 0 "T" [] "s" (some [("T", .i32)]) true [] [] rfl).2.2
      .i32 rfl rfl

/-- Claim C9 (code bug): for `namespace N { interface I {} }`, the
interface is inserted into the namespace's `members` map keyed by its
path-qualified internal name `src/N.I` (the source passes
`prototype.internalName` at the insertion), not by its simple name `I`
as claimed for every member kind, so `members["I"]` is absent. -/
theorem c9_interface_member_key :
    (initializeProgram 20 c9prog .wasm32).map
      (fun st => (((st.entities.get? 0).bind (fun e => e.members)).map
        (fun ms => (ms.lookup "I", ms.lookup "src/N.I")),
        (st.entities.get? 1).map (fun e => (e.kind, e.simpleName)), st.diags))
      = some (some (none, some (some 1)), some (.interfaceProto, "I"), []) := by rfl

/-- Claim C10 counterexample: merging a second `export namespace N {}`
into the first one DOES emit a diagnostic
(`Export_declaration_conflicts_with_exported_declaration_of_0`), because
the reused element is exported and already present in `exports` — the
claim's "emits no diagnostic" fails (though indeed no new entity is
created). -/
theorem c10_counterexample :
    jsGet c10st1.elements "src/N" = some 0 ∧
    (initializeNamespace 1 c10st1 "N" "src/N" [.exportMod] [] none).diags
      = [⟨.Export_declaration_conflicts_with_exported_declaration_of_0, ["src/N"]⟩] ∧
    (initializeNamespace 1 c10st1 "N" "src/N" [.exportMod] [] none).entities
      = c10st1.entities := by
  exact ⟨rfl, rfl, rfl⟩

/-- Claim C10 (corrected): when a namespace declaration's internal name
is already bound in `elements`, no new entity is created and the existing
element is reused; the merge is silent and the members are bound into the
shared element exactly when the reused element is not exported (at the
top level) and its simple name is not already a member of the parent
namespace — an exported reused element re-triggers the exports-conflict
diagnostic and a parent-member collision the duplicate diagnostic, both
skipping the second declaration's members.  The concrete two-namespace
program merges `f` and `g` into one element with no diagnostics. -/
theorem c10_namespace_merge :
    (∀ fuel (st : ProgState) name iname mods nsId ent,
      jsGet st.elements iname = some nsId → st.entities.get? nsId = some ent →
      ent.isExported = false →
      initializeNamespace fuel st name iname mods [] none = st) ∧
    (∀ fuel (st : ProgState) name iname mods members nsId ent,
      jsGet st.elements iname = some nsId → st.entities.get? nsId = some ent →
      ent.isExported = true → jsHas st.exports iname = true →
      initializeNamespace fuel st name iname mods members none
        = st.error .Export_declaration_conflicts_with_exported_declaration_of_0 [iname]) ∧
    (∀ fuel (st : ProgState) name iname mods members nsId pId pent ms,
      jsGet st.elements iname = some nsId → st.entities.get? pId = some pent →
      pent.members = some ms → jsHas ms name = true →
      initializeNamespace fuel st name iname mods members (some pId)
        = st.error .Duplicate_identifier_0 [iname]) ∧
    ((initializeProgram 20 c10mergeProg .wasm32).map
      (fun st => (st.entities.length,
        ((st.entities.get? 0).bind (fun e => e.members)).map
          (fun ms => (ms.lookup "f", ms.lookup "g")), st.diags))
      = some (3, some (some (some 1), some (some 2)), [])) := by
  refine ⟨?_, ?_, ?_, by rfl⟩
  · intro fuel st name iname mods nsId ent he hg hx
    have hent : st.entities[nsId]? = some ent := by
      rw [← List.get?_eq_getElem?]; exact hg
    simp [initializeNamespace, initializeNamespaceGo, he, ProgState.getEnt, List.getD, hent, hx]
  · intro fuel st name iname mods members nsId ent he hg hx h4
    have hent : st.entities[nsId]? = some ent := by
      rw [← List.get?_eq_getElem?]; exact hg
    have h4' : (st.exports.lookup iname).isSome = true := h4
    simp [initializeNamespace, initializeNamespaceGo, he, ProgState.getEnt, List.getD, hent,
      hx, jsHas, h4']
  · intro fuel st name iname mods members nsId pId pent ms he hg hm h4
    have hent : st.entities[pId]? = some pent := by
      rw [← List.get?_eq_getElem?]; exact hg
    have h4' : (ms.lookup name).isSome = true := h4
    simp [initializeNamespace, initializeNamespaceGo, he, ProgState.getEnt, List.getD, hent,
      hm, jsHas, h4']

/-- Witness for C10: re-binding the plain namespace over `c6st1` is a
silent no-op, and re-binding the exported namespace over `c10st1` emits
the conflict diagnostic. -/
theorem c10_namespace_merge_witness :
    jsGet c6st1.elements "src/N" = some 0 ∧
    initializeNamespace 1 c6st1 "N2" "src/N" [] [] none = c6st1 ∧
    jsGet c10st1.elements "src/N" = some 0 ∧ jsHas c10st1.exports "src/N" = true ∧
    initializeNamespace 1 c10st1 "N2" "src/N" [] [] none
      = c10st1.error .Export_declaration_conflicts_with_exported_declaration_of_0 ["src/N"] := by
  refine ⟨rfl, ?_, rfl, rfl, ?_⟩
  · exact c10_namespace_merge.1 1 c6st1 "N2" "src/N" [] 0
      (mkNamespaceData "N" "src/N" [] none) rfl rfl rfl
  · exact c10_namespace_merge.2.1 1 c10st1 "N2" "src/N" [] [] 0
      (mkNamespaceData "N" "src/N" [.exportMod] none) rfl rfl rfl rfl

end AScript
